import Mathlib

/-!
Verification of the back-pressure demo core (bounded queue, submission gate,
worker retry loop, circuit breaker, downstream client) against its
natural-language specification.  The definitions below are shallow embeddings
of the Python source in `src/app/worker.py`, `src/app/worker_pool.py` and
`src/app/downstream.py`.  Wall-clock instants and durations are modelled as
rationals; random draws (`random.random()`, `random.uniform`) become explicit
parameters.
-/

/-! ### Bounded task queue

Model of `asyncio.Queue(maxsize=n)` as used by both `WorkerPool.submit`
implementations (`src/app/worker_pool.py` lines 26-63 and `src/app/worker.py`
lines 106, 134-147).  `full` mirrors `asyncio.Queue.full()`: a queue with
`maxsize <= 0` is unbounded. -/

structure BQueue (α : Type) where
  items : List α
  maxsize : Nat

def BQueue.full {α : Type} (q : BQueue α) : Bool :=
  decide (0 < q.maxsize) && decide (q.maxsize ≤ q.items.length)

def BQueue.push {α : Type} (q : BQueue α) (a : α) : BQueue α :=
  { q with items := q.items ++ [a] }

def BQueue.popFront {α : Type} (q : BQueue α) : BQueue α :=
  { q with items := q.items.tail }

/-- Events on the shared queue.  A producer either calls `put_nowait`
(`putNowait`), or awaits `queue.put` under `asyncio.wait_for`: the put
coroutine completes only at an instant where the queue has room
(`putCompleted`), or the wait times out and the put is cancelled
(`putTimeout`).  A worker dequeues with `queue.get` (`get`). -/
inductive QOp (α : Type) where
  | putNowait (a : α)
  | putCompleted (a : α)
  | putTimeout
  | get

/-- One queue event, returning whether the submission was accepted together
with the new queue.  `put_nowait` raises `asyncio.QueueFull` when the queue is
full and enqueues otherwise; a blocked `put` can only complete when the queue
is not full; a timed-out `put` is cancelled without enqueuing; `get` removes
the front item. -/
def stepQR {α : Type} (q : BQueue α) : QOp α → Bool × BQueue α
  | .putNowait a => if q.full then (false, q) else (true, q.push a)
  | .putCompleted a => if q.full then (false, q) else (true, q.push a)
  | .putTimeout => (false, q)
  | .get => (true, q.popFront)

def stepQ {α : Type} (q : BQueue α) (op : QOp α) : BQueue α :=
  (stepQR q op).2

def runQ {α : Type} (q : BQueue α) (ops : List (QOp α)) : BQueue α :=
  ops.foldl stepQ q

lemma stepQ_maxsize {α : Type} (q : BQueue α) (op : QOp α) :
    (stepQ q op).maxsize = q.maxsize := by
  cases op <;> simp [stepQ, stepQR, BQueue.push, BQueue.popFront] <;> split <;> rfl

lemma stepQ_length_le {α : Type} (q : BQueue α) (op : QOp α)
    (hpos : 0 < q.maxsize) (h : q.items.length ≤ q.maxsize) :
    (stepQ q op).items.length ≤ q.maxsize := by
  cases op with
  | putNowait a =>
      by_cases hf : q.full
      · simp [stepQ, stepQR, hf, h]
      · have hlt : q.items.length < q.maxsize := by
          have := hf
          simp [BQueue.full, hpos] at this
          omega
        simp [stepQ, stepQR, hf, BQueue.push]
        omega
  | putCompleted a =>
      by_cases hf : q.full
      · simp [stepQ, stepQR, hf, h]
      · have hlt : q.items.length < q.maxsize := by
          have := hf
          simp [BQueue.full, hpos] at this
          omega
        simp [stepQ, stepQR, hf, BQueue.push]
        omega
  | putTimeout => simpa [stepQ, stepQR] using h
  | get =>
      have : q.items.tail.length ≤ q.items.length := by
        cases q.items <;> simp
      simp [stepQ, stepQR, BQueue.popFront]
      omega

lemma runQ_length_le {α : Type} (ops : List (QOp α)) (q : BQueue α)
    (hpos : 0 < q.maxsize) (h : q.items.length ≤ q.maxsize) :
    (runQ q ops).items.length ≤ q.maxsize := by
  induction ops generalizing q with
  | nil => simpa [runQ] using h
  | cons op ops ih =>
      have h1 := stepQ_length_le q op hpos h
      have hm := stepQ_maxsize q op
      have := ih (stepQ q op) (hm ▸ hpos) (by rw [hm]; exact h1)
      simpa [runQ, hm] using this

/-- C1: For every sequence of submit operations (non-blocking or timed)
interleaved with worker dequeues, the number of items in the task queue never
exceeds the configured capacity (`queue_size` / `maxsize`) passed at pool
construction. -/
theorem queue_capacity_invariant {α : Type} (cap : Nat) (hpos : 0 < cap)
    (ops : List (QOp α)) :
    (runQ ⟨[], cap⟩ ops).items.length ≤ cap := by
  exact runQ_length_le ops ⟨[], cap⟩ hpos (by simp)

/-- Witness for C1 at capacity 2 with a concrete sequence of submissions and
dequeues. -/
theorem queue_capacity_invariant_witness :
    (runQ (⟨[], 2⟩ : BQueue Nat)
      [.putNowait 1, .putNowait 2, .putNowait 3, .get, .putCompleted 4,
       .putTimeout, .putNowait 5]).items.length ≤ 2 :=
  queue_capacity_invariant 2 (by decide)
    [.putNowait 1, .putNowait 2, .putNowait 3, .get, .putCompleted 4,
     .putTimeout, .putNowait 5]

/-! ### Circuit breaker of `src/app/downstream.py` (lines 10-33)

`opened_at = 0.0` is the closed sentinel; `is_open` lazily resets the breaker
(half-open simplification) once `now - opened_at > reset_seconds`, mutating the
state, so it returns the updated breaker alongside the answer. -/

structure CircuitBreaker where
  fail_threshold : Nat
  reset_seconds : ℚ
  fail_count : Nat
  opened_at : ℚ

def CircuitBreaker.record_success (cb : CircuitBreaker) : CircuitBreaker :=
  { cb with fail_count := 0 }

def CircuitBreaker.record_failure (cb : CircuitBreaker) (now : ℚ) : CircuitBreaker :=
  let fc := cb.fail_count + 1
  { cb with
    fail_count := fc
    opened_at := if cb.fail_threshold ≤ fc then now else cb.opened_at }

def CircuitBreaker.is_open (cb : CircuitBreaker) (now : ℚ) : Bool × CircuitBreaker :=
  if cb.opened_at = 0 then (false, cb)
  else if cb.reset_seconds < now - cb.opened_at then
    (false, { cb with fail_count := 0, opened_at := 0 })
  else (true, cb)

/-! ### Downstream client of `src/app/downstream.py` (lines 35-65)

`call` first consults the breaker; while open it raises
`DownstreamError("circuit-open")` without any downstream attempt.  Otherwise
it loops `for attempt in range(1, retries + 2)`, i.e. attempts `1..retries+1`:
each failed `_do_call` (simulated failure or `wait_for` timeout) is recorded
with `record_failure` and retried after a jitter sleep; the final failure is
re-raised.  `_do_call` only raises `DownstreamError("simulated downstream
failure")` or a timeout, so the `str(exc) == "circuit-open"` re-raise branch
inside the loop is unreachable and is not modelled.  The per-attempt outcome
is abstracted as `outcomes : Nat → Bool` (`true` = the attempt returns a
result within the timeout). -/

inductive CallResult where
  | ok
  | errExhausted
  | errCircuitOpen
  deriving DecidableEq

structure CallRet where
  result : CallResult
  attempts : Nat
  cb : CircuitBreaker

def callLoop (cb : CircuitBreaker) (outcomes : Nat → Bool) (now : ℚ) :
    Nat → Nat → CallRet
  | attempt, remaining =>
    if outcomes attempt then ⟨.ok, attempt, cb⟩
    else
      let cb1 := cb.record_failure now
      match remaining with
      | 0 => ⟨.errExhausted, attempt, cb1⟩
      | r + 1 => callLoop cb1 outcomes now (attempt + 1) r

def DownstreamClient.call (cb : CircuitBreaker) (retries : Nat)
    (outcomes : Nat → Bool) (now : ℚ) : CallRet :=
  match cb.is_open now with
  | (true, cb1) => ⟨.errCircuitOpen, 0, cb1⟩
  | (false, cb1) => callLoop cb1 outcomes now 1 retries

/-! ### Circuit breaker of `src/app/worker.py` (lines 24-50) and the
`PostgresAdapter.write` guard (lines 63-74)

This variant keeps `opened_at` as `None`-or-timestamp and opens only on the
transition (`failures >= threshold and opened_at is None`).  `write` raises
`CircuitOpenError` before any downstream work whenever the breaker reports
open; in demo mode the simulated outcome (`simFail`) drives
`record_failure` / `record_success`. -/

structure WCircuitBreaker where
  threshold : Nat
  reset_timeout : ℚ
  failures : Nat
  opened_at : Option ℚ

def WCircuitBreaker.record_success (cb : WCircuitBreaker) : WCircuitBreaker :=
  { cb with failures := 0, opened_at := none }

def WCircuitBreaker.record_failure (cb : WCircuitBreaker) (now : ℚ) : WCircuitBreaker :=
  let f := cb.failures + 1
  { cb with
    failures := f
    opened_at := if cb.threshold ≤ f ∧ cb.opened_at = none then some now else cb.opened_at }

def WCircuitBreaker.is_open (cb : WCircuitBreaker) (now : ℚ) : Bool × WCircuitBreaker :=
  match cb.opened_at with
  | none => (false, cb)
  | some t =>
    if cb.reset_timeout ≤ now - t then
      (false, { cb with failures := 0, opened_at := none })
    else (true, cb)

inductive WriteResult where
  | circuitOpenErr
  | ok
  | dbFail
  deriving DecidableEq

def PostgresAdapter.write (cb : WCircuitBreaker) (now : ℚ) (simFail : Bool) :
    WriteResult × WCircuitBreaker :=
  match cb.is_open now with
  | (true, cb1) => (.circuitOpenErr, cb1)
  | (false, cb1) =>
    if simFail then (.dbFail, cb1.record_failure now)
    else (.ok, cb1.record_success)

/-- C2: For every state in which the consecutive-failure count has reached the
threshold T (opening the breaker at time `t0`) and the current time is still
inside the open window (`now < t0 + reset`), any downstream call attempt —
`DownstreamClient.call` as well as `PostgresAdapter.write` — fails immediately
with a circuit-open error, makes no downstream attempt, and leaves the failure
counter unchanged. -/
theorem circuit_open_fail_fast
    (cb : CircuitBreaker) (wcb : WCircuitBreaker)
    (t0 now : ℚ) (retries : Nat) (outcomes : Nat → Bool) (simFail : Bool)
    (ht0 : 0 < t0)
    (hth : cb.fail_threshold ≤ cb.fail_count + 1)
    (hwth : wcb.threshold ≤ wcb.failures + 1)
    (hwclosed : wcb.opened_at = none)
    (hwin : now < t0 + cb.reset_seconds)
    (hwwin : now < t0 + wcb.reset_timeout) :
    DownstreamClient.call (cb.record_failure t0) retries outcomes now =
      ⟨.errCircuitOpen, 0, cb.record_failure t0⟩ ∧
    (cb.record_failure t0).fail_count = cb.fail_count + 1 ∧
    PostgresAdapter.write (wcb.record_failure t0) now simFail =
      (.circuitOpenErr, wcb.record_failure t0) ∧
    (wcb.record_failure t0).failures = wcb.failures + 1 := by
  have hopen : (cb.record_failure t0).opened_at = t0 := by
    simp [CircuitBreaker.record_failure, hth]
  have hwopen : (wcb.record_failure t0).opened_at = some t0 := by
    simp [WCircuitBreaker.record_failure, hwth, hwclosed]
  have hres : (cb.record_failure t0).reset_seconds = cb.reset_seconds := rfl
  have hwres : (wcb.record_failure t0).reset_timeout = wcb.reset_timeout := rfl
  refine ⟨?_, by simp [CircuitBreaker.record_failure], ?_,
    by simp [WCircuitBreaker.record_failure]⟩
  · have h1 : ¬ (cb.record_failure t0).opened_at = 0 := by
      rw [hopen]; exact ne_of_gt ht0
    have h2 : ¬ (cb.record_failure t0).reset_seconds <
        now - (cb.record_failure t0).opened_at := by
      rw [hopen, hres]
      intro hc
      have : t0 + cb.reset_seconds < now := by linarith
      linarith
    simp [DownstreamClient.call, CircuitBreaker.is_open, h1, h2]
  · have h2 : ¬ (wcb.record_failure t0).reset_timeout ≤ now - t0 := by
      rw [hwres]
      intro hc
      have : t0 + wcb.reset_timeout ≤ now := by linarith
      linarith
    simp [PostgresAdapter.write, WCircuitBreaker.is_open, hwopen, h2]

/-- Witness for C2: both breakers at threshold 3 with 2 prior failures, a
third failure at `t0 = 5` opens them, and a call at `now = 9` inside the
10-second window fails fast with counters untouched. -/
theorem circuit_open_fail_fast_witness :
    DownstreamClient.call
        ((⟨3, 10, 2, 0⟩ : CircuitBreaker).record_failure 5) 2 (fun _ => true) 9 =
      ⟨.errCircuitOpen, 0, (⟨3, 10, 2, 0⟩ : CircuitBreaker).record_failure 5⟩ ∧
    ((⟨3, 10, 2, 0⟩ : CircuitBreaker).record_failure 5).fail_count = 3 ∧
    PostgresAdapter.write
        ((⟨3, 10, 2, none⟩ : WCircuitBreaker).record_failure 5) 9 false =
      (.circuitOpenErr, (⟨3, 10, 2, none⟩ : WCircuitBreaker).record_failure 5) ∧
    ((⟨3, 10, 2, none⟩ : WCircuitBreaker).record_failure 5).failures = 3 :=
  circuit_open_fail_fast ⟨3, 10, 2, 0⟩ ⟨3, 10, 2, none⟩ 5 9 2 (fun _ => true)
    false (by norm_num) (by norm_num) (by norm_num) rfl (by norm_num) (by norm_num)

/-! ### Worker retry loop of `src/app/worker.py` (`_process_with_retries`,
lines 167-194)

The Python loop starts with `attempt = 0`, runs `while attempt <= max_retries`,
increments `attempt`, and calls the handler.  Success returns immediately;
`CircuitOpenError` is recorded as a failure and returns without any further
attempt or sleep; any other exception returns as a permanent failure when
`attempt > max_retries`, otherwise sleeps the jittered exponential backoff and
retries.  The handler outcome of the k-th attempt (1-indexed) is abstracted as
`h : Nat → HOutcome`.  The model is written with `remaining = max_retries -
attempt` as the recursion fuel and also counts the backoff sleeps performed. -/

inductive HOutcome where
  | ok (v : Nat)
  | fail
  | circuitOpen
  deriving DecidableEq

inductive ProcResult where
  | success (v : Nat)
  | failedExhausted
  | failedCircuitOpen
  deriving DecidableEq

/-- One loop iteration of `_process_with_retries`: the current attempt number
is `attempt + 1` and `remaining` many further attempts would still be allowed
(`remaining = max_retries - attempt`).  Returns the outcome, the number of
attempts performed, and the number of backoff sleeps performed. -/
def procLoop (h : Nat → HOutcome) : Nat → Nat → Nat → ProcResult × Nat × Nat
  | attempt, remaining, sleeps =>
    let a := attempt + 1
    match h a with
    | .ok v => (.success v, a, sleeps)
    | .circuitOpen => (.failedCircuitOpen, a, sleeps)
    | .fail =>
      match remaining with
      | 0 => (.failedExhausted, a, sleeps)
      | r + 1 => procLoop h a r (sleeps + 1)

def processWithRetries (maxRetries : Nat) (h : Nat → HOutcome) :
    ProcResult × Nat × Nat :=
  procLoop h 0 maxRetries 0

lemma procLoop_success (h : Nat → HOutcome) (k v : Nat)
    (hk : ∀ i, 1 ≤ i → i < k → h i = .fail) (hsucc : h k = .ok v) :
    ∀ remaining attempt sleeps, attempt < k → k ≤ attempt + remaining + 1 →
      procLoop h attempt remaining sleeps = (.success v, k, sleeps + (k - attempt - 1)) := by
  intro remaining
  induction remaining with
  | zero =>
      intro attempt sleeps hlt hle
      have hk1 : k = attempt + 1 := by omega
      subst hk1
      simp [procLoop, hsucc]
  | succ r ih =>
      intro attempt sleeps hlt hle
      by_cases he : k = attempt + 1
      · subst he
        simp [procLoop, hsucc]
      · have hfail : h (attempt + 1) = .fail := hk _ (by omega) (by omega)
        have := ih (attempt + 1) (sleeps + 1) (by omega) (by omega)
        simp only [procLoop, hfail]
        rw [this]
        have : sleeps + 1 + (k - (attempt + 1) - 1) = sleeps + (k - attempt - 1) := by
          omega
        rw [this]

lemma procLoop_circuitOpen (h : Nat → HOutcome) (k : Nat)
    (hk : ∀ i, 1 ≤ i → i < k → h i = .fail) (hco : h k = .circuitOpen) :
    ∀ remaining attempt sleeps, attempt < k → k ≤ attempt + remaining + 1 →
      procLoop h attempt remaining sleeps =
        (.failedCircuitOpen, k, sleeps + (k - attempt - 1)) := by
  intro remaining
  induction remaining with
  | zero =>
      intro attempt sleeps hlt hle
      have hk1 : k = attempt + 1 := by omega
      subst hk1
      simp [procLoop, hco]
  | succ r ih =>
      intro attempt sleeps hlt hle
      by_cases he : k = attempt + 1
      · subst he
        simp [procLoop, hco]
      · have hfail : h (attempt + 1) = .fail := hk _ (by omega) (by omega)
        have := ih (attempt + 1) (sleeps + 1) (by omega) (by omega)
        simp only [procLoop, hfail]
        rw [this]
        have : sleeps + 1 + (k - (attempt + 1) - 1) = sleeps + (k - attempt - 1) := by
          omega
        rw [this]

lemma procLoop_allFail (h : Nat → HOutcome) :
    ∀ remaining attempt sleeps,
      (∀ i, attempt < i → i ≤ attempt + remaining + 1 → h i = .fail) →
      procLoop h attempt remaining sleeps =
        (.failedExhausted, attempt + remaining + 1, sleeps + remaining) := by
  intro remaining
  induction remaining with
  | zero =>
      intro attempt sleeps hall
      have hfail : h (attempt + 1) = .fail := hall _ (by omega) (by omega)
      simp [procLoop, hfail]
  | succ r ih =>
      intro attempt sleeps hall
      have hfail : h (attempt + 1) = .fail := hall _ (by omega) (by omega)
      have := ih (attempt + 1) (sleeps + 1) (fun i h1 h2 => hall i (by omega) (by omega))
      simp only [procLoop, hfail]
      rw [this]
      have h1 : attempt + 1 + r + 1 = attempt + (r + 1) + 1 := by omega
      have h2 : sleeps + 1 + r = sleeps + (r + 1) := by omega
      rw [h1, h2]

/-- C4: For every task processed by a worker: if the handler fails on each of
the first `k - 1` attempts and succeeds on attempt `k ≤ maxRetries + 1`,
processing ends in the success outcome with the successful result after
exactly `k` attempts; if the handler fails on every attempt, processing ends
in the failed outcome after exactly `maxRetries + 1` attempts, no more and no
fewer. -/
theorem retry_attempt_counts (maxRetries : Nat) (h : Nat → HOutcome)
    (k v : Nat) (hk1 : 1 ≤ k) (hkle : k ≤ maxRetries + 1)
    (hfails : ∀ i, 1 ≤ i → i < k → h i = .fail) :
    (h k = .ok v →
      processWithRetries maxRetries h = (.success v, k, k - 1)) ∧
    ((∀ i, 1 ≤ i → i ≤ maxRetries + 1 → h i = .fail) →
      processWithRetries maxRetries h = (.failedExhausted, maxRetries + 1, maxRetries)) := by
  constructor
  · intro hsucc
    have := procLoop_success h k v hfails hsucc maxRetries 0 0 (by omega) (by omega)
    simpa [processWithRetries] using this
  · intro hall
    have := procLoop_allFail h maxRetries 0 0
      (fun i h1 h2 => hall i (by omega) (by omega))
    simpa [processWithRetries] using this

/-- Witness for C4: with `maxRetries = 2`, a handler that fails twice then
succeeds on attempt 3 yields success after 3 attempts, while an always-failing
handler yields the failed outcome after exactly 3 attempts. -/
theorem retry_attempt_counts_witness :
    processWithRetries 2 (fun i => if i < 3 then .fail else .ok 7) =
      (.success 7, 3, 2) ∧
    processWithRetries 2 (fun _ => .fail) = (.failedExhausted, 3, 2) := by
  constructor
  · exact (retry_attempt_counts 2 (fun i => if i < 3 then .fail else .ok 7) 3 7
      (by decide) (by decide)
      (fun i h1 h2 => by interval_cases i <;> decide)).1 (by decide)
  · exact (retry_attempt_counts 2 (fun _ => .fail) 1 0 (by decide) (by decide)
      (fun i h1 h2 => by omega)).2 (fun i _ _ => rfl)

/-- C6: For every task whose handler raises `CircuitOpenError` on attempt `k`
(after ordinary failures on attempts `1..k-1`), the worker records a failure
outcome immediately with exactly `k` attempts and only the `k - 1` backoff
sleeps of the earlier ordinary failures: no further attempt and no backoff
sleep follows the `CircuitOpenError`, which is terminal for the task. -/
theorem circuit_open_terminal_no_retry (maxRetries : Nat) (h : Nat → HOutcome)
    (k : Nat) (hk1 : 1 ≤ k) (hkle : k ≤ maxRetries + 1)
    (hfails : ∀ i, 1 ≤ i → i < k → h i = .fail)
    (hco : h k = .circuitOpen) :
    processWithRetries maxRetries h = (.failedCircuitOpen, k, k - 1) := by
  have := procLoop_circuitOpen h k hfails hco maxRetries 0 0 (by omega) (by omega)
  simpa [processWithRetries] using this

/-- Witness for C6: with `maxRetries = 5`, a handler failing once and then
raising `CircuitOpenError` on attempt 2 stops after 2 attempts and 1 sleep. -/
theorem circuit_open_terminal_no_retry_witness :
    processWithRetries 5 (fun i => if i = 1 then .fail else .circuitOpen) =
      (.failedCircuitOpen, 2, 1) :=
  circuit_open_terminal_no_retry 5 (fun i => if i = 1 then .fail else .circuitOpen)
    2 (by decide) (by decide) (fun i h1 h2 => by interval_cases i; decide)
    (by decide)

/-! ### Backoff computation of `src/app/worker.py` (lines 191-193)

After the k-th failed attempt (1-indexed, `attempt = k` at that point) the
worker computes `backoff = backoff_base * 2 ** (attempt - 1)` and multiplies
by the jitter factor `0.8 + random.random() * 0.4`, with the draw
`u = random.random()` uniform on `[0, 1)`. -/

def backoffDelay (base : ℚ) (k : Nat) (u : ℚ) : ℚ :=
  (base * 2 ^ (k - 1)) * (4 / 5 + u * (2 / 5))

/-- Mean of the jitter window `[0.8, 1.2] * base * 2 ^ (k - 1)`: the expected
backoff before the retry that follows attempt `k`. -/
def expectedBackoff (base : ℚ) (k : Nat) : ℚ :=
  base * 2 ^ (k - 1)

/-- C5: For every attempt number `k` (1-indexed) of a retried task, the
backoff delay slept before the next attempt lies in the closed interval
`[b * 2 ^ (k-1) * 0.8, b * 2 ^ (k-1) * 1.2]` where `b` is the configured
backoff base, and the expected delay is non-decreasing in `k`. -/
theorem backoff_bounds_and_expectation (base u : ℚ) (k : Nat)
    (hb : 0 ≤ base) (hu0 : 0 ≤ u) (hu1 : u < 1) :
    (base * 2 ^ (k - 1)) * (4 / 5) ≤ backoffDelay base k u ∧
    backoffDelay base k u ≤ (base * 2 ^ (k - 1)) * (6 / 5) ∧
    expectedBackoff base k ≤ expectedBackoff base (k + 1) := by
  have hm : (0 : ℚ) ≤ base * 2 ^ (k - 1) := by positivity
  refine ⟨?_, ?_, ?_⟩
  · unfold backoffDelay
    have hj : (4 / 5 : ℚ) ≤ 4 / 5 + u * (2 / 5) := by nlinarith
    nlinarith
  · unfold backoffDelay
    have hj : (4 / 5 : ℚ) + u * (2 / 5) ≤ 6 / 5 := by nlinarith
    nlinarith
  · unfold expectedBackoff
    have hpow : (2 : ℚ) ^ (k - 1) ≤ 2 ^ (k + 1 - 1) := by
      apply pow_le_pow_right₀ (by norm_num)
      omega
    nlinarith

/-- Witness for C5 at `base = 1/2`, attempt `k = 3`, draw `u = 1/4`: the
delay `1/2 * 4 * 0.9 = 9/5` lies within `[8/5, 12/5]` and the expected delay
is non-decreasing at `k = 3`. -/
theorem backoff_bounds_and_expectation_witness :
    ((1 / 2 : ℚ) * 2 ^ (3 - 1)) * (4 / 5) ≤ backoffDelay (1 / 2) 3 (1 / 4) ∧
    backoffDelay (1 / 2) 3 (1 / 4) ≤ ((1 / 2 : ℚ) * 2 ^ (3 - 1)) * (6 / 5) ∧
    expectedBackoff (1 / 2) 3 ≤ expectedBackoff (1 / 2) 4 :=
  backoff_bounds_and_expectation (1 / 2) (1 / 4) 3 (by norm_num) (by norm_num)
    (by norm_num)

/-! ### C7: the downstream client does retry internally

`DownstreamClient.call` (`src/app/downstream.py` lines 49-65) loops over
`range(1, self.retries + 2)`: with the default `retries = 2` a single
invocation performs up to 3 downstream attempts.  The claim that a single
invocation performs at most one downstream attempt is therefore false; the
bound that does hold is `retries + 1` attempts per invocation. -/

/-- C7 counterexample: with the default `retries = 2`, a closed breaker and a
first attempt that fails, a single `call` invocation performs 2 downstream
attempts (the second succeeds) — refuting the claim that the client performs
at most one downstream attempt and never retries. -/
theorem client_call_retries_counterexample :
    (DownstreamClient.call ⟨5, 10, 0, 0⟩ 2 (fun i => decide (2 ≤ i)) 1).attempts
      = 2 ∧
    ¬ (DownstreamClient.call ⟨5, 10, 0, 0⟩ 2 (fun i => decide (2 ≤ i)) 1).attempts
      ≤ 1 := by
  constructor
  · rfl
  · intro hc
    simp [DownstreamClient.call, CircuitBreaker.is_open, callLoop,
      CircuitBreaker.record_failure] at hc

lemma callLoop_attempts_le (outcomes : Nat → Bool) (now : ℚ) :
    ∀ remaining cb attempt,
      (callLoop cb outcomes now attempt remaining).attempts ≤ attempt + remaining := by
  intro remaining
  induction remaining with
  | zero =>
      intro cb attempt
      by_cases ho : outcomes attempt <;> simp [callLoop, ho]
  | succ r ih =>
      intro cb attempt
      by_cases ho : outcomes attempt
      · simp [callLoop, ho]
      · have hstep : callLoop cb outcomes now attempt (r + 1) =
            callLoop (cb.record_failure now) outcomes now (attempt + 1) r := by
          conv_lhs => rw [callLoop]
          simp [ho]
        rw [hstep]
        have := ih (cb.record_failure now) (attempt + 1)
        omega

/-- C7 amended: a single invocation of `DownstreamClient.call` performs at
most `retries + 1` downstream attempts — the client retries internally up to
its configured `retries` count (in addition to any worker-level handling),
rather than performing at most one attempt. -/
theorem client_call_attempt_bound (cb : CircuitBreaker) (retries : Nat)
    (outcomes : Nat → Bool) (now : ℚ) :
    (DownstreamClient.call cb retries outcomes now).attempts ≤ retries + 1 := by
  unfold DownstreamClient.call
  rcases h : cb.is_open now with ⟨b, cb1⟩
  cases b
  · have := callLoop_attempts_le outcomes now retries cb1 1
    simpa [Nat.add_comm] using this
  · simp

/-! ### C3: behavior of a half-open trial

Both breakers reset `fail_count` / `failures` to zero (and clear `opened_at`)
the moment `is_open` observes that the cooldown elapsed — before the trial
call runs (`src/app/downstream.py` lines 28-32, `src/app/worker.py` lines
44-49).  A subsequent successful trial keeps the breaker closed, but a FAILED
trial merely sets the counter back to 1, which is below any threshold greater
than one, so the breaker stays closed instead of re-opening with a renewed
window.  The concrete trace below exhibits this. -/

/-- C3: the code contradicts the claim that a failed half-open trial re-opens
the breaker with a renewed window.  With threshold 2 and reset window 10, two
failures at times 1 and 2 open the breaker (`opened_at = 2`).  A call at time
13 (window elapsed) is attempted as a trial — that part of the claim holds —
but when the trial fails, the failure counter restarts from the reset value 0
at 1, `opened_at` stays 0, and a later call at time 14 finds the breaker
closed.  The `worker.py` breaker behaves the same way through
`PostgresAdapter.write`. -/
theorem failed_trial_leaves_breaker_closed :
    (DownstreamClient.call
        (((⟨2, 10, 0, 0⟩ : CircuitBreaker).record_failure 1).record_failure 2)
        0 (fun _ => false) 13).result = .errExhausted ∧
    (DownstreamClient.call
        (((⟨2, 10, 0, 0⟩ : CircuitBreaker).record_failure 1).record_failure 2)
        0 (fun _ => false) 13).attempts = 1 ∧
    (DownstreamClient.call
        (((⟨2, 10, 0, 0⟩ : CircuitBreaker).record_failure 1).record_failure 2)
        0 (fun _ => false) 13).cb.opened_at = 0 ∧
    (DownstreamClient.call
        (((⟨2, 10, 0, 0⟩ : CircuitBreaker).record_failure 1).record_failure 2)
        0 (fun _ => false) 13).cb.fail_count = 1 ∧
    ((DownstreamClient.call
        (((⟨2, 10, 0, 0⟩ : CircuitBreaker).record_failure 1).record_failure 2)
        0 (fun _ => false) 13).cb.is_open 14).1 = false ∧
    (PostgresAdapter.write
        (((⟨2, 10, 0, none⟩ : WCircuitBreaker).record_failure 1).record_failure 2)
        13 true).1 = .dbFail ∧
    ((PostgresAdapter.write
        (((⟨2, 10, 0, none⟩ : WCircuitBreaker).record_failure 1).record_failure 2)
        13 true).2.is_open 14).1 = false := by
  refine ⟨?_, ?_, ?_, ?_, ?_, ?_, ?_⟩ <;>
    norm_num [DownstreamClient.call, CircuitBreaker.is_open,
      CircuitBreaker.record_failure, callLoop, PostgresAdapter.write,
      WCircuitBreaker.is_open, WCircuitBreaker.record_failure]

/-! ### C8: the submission gate never blocks indefinitely

`WorkerPool.submit` in `src/app/worker_pool.py` (lines 49-63) runs
`put_nowait` when `timeout is None` and `asyncio.wait_for(queue.put(...),
timeout)` otherwise; `src/app/worker.py` (lines 134-147) runs `put_nowait`
when `block` is false and the same `wait_for` otherwise.  `put_nowait` returns
(or raises `QueueFull`) without suspending; `wait_for` resumes at the earlier
of the instant a queue slot is granted to the waiting put and the timeout
deadline.  The elapsed time until `submit` returns is modelled as a function
of the admission mode and of the (possibly never occurring) instant `spaceAt`
at which the waiting put would be granted a slot. -/

inductive SubmitTiming where
  | nowait
  | timed (timeout : ℚ) (spaceAt : Option ℚ)

def submitReturnTime : SubmitTiming → ℚ
  | .nowait => 0
  | .timed t none => t
  | .timed t (some s) => min s t

/-- C8: For every submission, the submission gate terminates without blocking
indefinitely: in non-blocking mode submit returns immediately (elapsed time
0, accepted or rejected), and in timed mode submit returns after at most the
configured admission timeout, whether or not space ever becomes available. -/
theorem submit_gate_bounded_return (t : ℚ) (spaceAt : Option ℚ) :
    submitReturnTime .nowait = 0 ∧
    submitReturnTime (.timed t spaceAt) ≤ t := by
  refine ⟨rfl, ?_⟩
  cases spaceAt with
  | none => simp [submitReturnTime]
  | some s => simp [submitReturnTime]

/-! ### C9: what `stop` does to in-flight tasks

`WorkerPool.stop` in `src/app/worker_pool.py` (lines 42-47) sets `_running`
to false, calls `t.cancel()` on every worker task and gathers them.  A worker
that has claimed a job is suspended inside `await asyncio.wait_for(
self.downstream.call(payload), ...)` (line 73); cancellation raises
`asyncio.CancelledError` there.  Since Python 3.8 `CancelledError` derives
from `BaseException`, so the `except Exception` handler (lines 76-84) that
would call `fut.set_exception` does not run; the `except
asyncio.CancelledError` at line 88 breaks the loop.  The claimed job's future
is therefore never resolved: `stop` returns with the in-flight task dropped,
and no shutdown timeout exists anywhere in the function.  The pool is
modelled by the set of jobs claimed by workers and the set of job ids whose
futures have been resolved (reached a terminal state). -/

structure WPWorker where
  claimed : Option Nat
  deriving DecidableEq

structure WPPool where
  workers : List WPWorker
  resolved : List Nat
  deriving DecidableEq

/-- Model of `WorkerPool.stop`: every worker task is cancelled and gathered —
afterwards no workers remain — and cancellation resolves no job future, so
the resolved set is unchanged. -/
def WPPool.stop (p : WPPool) : WPPool :=
  { workers := [], resolved := p.resolved }

/-- Statement of claim C9 over the model: after `stop` returns, every job
that was claimed by a worker has reached a terminal state (its future was
resolved). -/
def noSilentDrop (p : WPPool) : Prop :=
  ∀ w ∈ p.workers, ∀ j, w.claimed = some j → j ∈ p.stop.resolved

instance (p : WPPool) : Decidable (noSilentDrop p) := by
  unfold noSilentDrop
  infer_instance

/-- C9 counterexample: a pool with one worker in flight on job 0 whose future
is unresolved.  `stop` cancels the worker and returns with job 0 still not in
a terminal state — the in-flight task is silently dropped, refuting the
claim. -/
theorem stop_drops_inflight_counterexample :
    ¬ noSilentDrop ⟨[⟨some 0⟩], []⟩ := by
  decide

/-- C9 amended: `stop` in `worker_pool.py` cancels all worker tasks instead
of waiting for them: after `stop` no workers remain, no additional job future
is resolved, and any job claimed but unresolved when `stop` is invoked is
still unresolved (dropped) when `stop` returns; no shutdown timeout is
involved. -/
theorem stop_cancels_without_waiting (p : WPPool) (w : WPWorker) (j : Nat)
    (_hw : w ∈ p.workers) (_hc : w.claimed = some j) (hu : j ∉ p.resolved) :
    p.stop.workers = [] ∧ p.stop.resolved = p.resolved ∧ j ∉ p.stop.resolved :=
  ⟨rfl, rfl, hu⟩

/-- Witness for C9 amended at the one-worker pool in flight on job 0. -/
theorem stop_cancels_without_waiting_witness :
    (WPPool.stop ⟨[⟨some 0⟩], []⟩).workers = [] ∧
    (WPPool.stop ⟨[⟨some 0⟩], []⟩).resolved = [] ∧
    0 ∉ (WPPool.stop ⟨[⟨some 0⟩], []⟩).resolved :=
  stop_cancels_without_waiting ⟨[⟨some 0⟩], []⟩ ⟨some 0⟩ 0 (by decide) rfl
    (by decide)

/-- C10: For every submission that is rejected for lack of queue space
(`QueueFullError` raised, or `False` returned in non-blocking mode), the
queue contents are exactly as before the submit call: no task is enqueued and
no queued item is modified by the failed submission. -/
theorem rejected_submit_preserves_queue {α : Type} (q : BQueue α) (a : α) :
    ((stepQR q (.putNowait a)).1 = false → (stepQR q (.putNowait a)).2 = q) ∧
    ((stepQR q (.putCompleted a)).1 = false → (stepQR q (.putCompleted a)).2 = q) ∧
    stepQR q (.putTimeout) = (false, q) := by
  refine ⟨?_, ?_, rfl⟩
  · intro h
    by_cases hf : q.full
    · simp [stepQR, hf]
    · simp [stepQR, hf] at h
  · intro h
    by_cases hf : q.full
    · simp [stepQR, hf]
    · simp [stepQR, hf] at h

/-- Witness for C10 at a full queue of capacity 2: the rejecting `put_nowait`,
the (impossible-to-complete) waiting put, and the timed-out put all leave the
queue exactly as it was. -/
theorem rejected_submit_preserves_queue_witness :
    (stepQR (⟨[1, 2], 2⟩ : BQueue Nat) (.putNowait 3)).2 = ⟨[1, 2], 2⟩ ∧
    (stepQR (⟨[1, 2], 2⟩ : BQueue Nat) (.putCompleted 3)).2 = ⟨[1, 2], 2⟩ ∧
    stepQR (⟨[1, 2], 2⟩ : BQueue Nat) (.putTimeout) = (false, ⟨[1, 2], 2⟩) :=
  ⟨(rejected_submit_preserves_queue ⟨[1, 2], 2⟩ 3).1 (by decide),
   (rejected_submit_preserves_queue ⟨[1, 2], 2⟩ 3).2.1 (by decide),
   (rejected_submit_preserves_queue ⟨[1, 2], 2⟩ 3).2.2⟩
